import Mathlib

/-!
Verification of the real-time call-signaling coordinator of the chat
backend (`backend/socket/socketHandler.js` and
`backend/models/CallSession.js`).

The socket handler keeps two process-wide maps:
  `connectedUsers : Map userId -> session` and
  `activeCalls    : Map callId -> { caller, callee, type, status }`,
plus durable `CallSession` documents in the database.

We embed this state shallowly: JavaScript `Map`s become association
lists with JS `Map` semantics (`mapGet` returns the first binding,
`mapSet` overwrites an existing binding in place or appends a fresh
one, `mapDelete` removes the binding), user/call identifiers and
statuses are `String`s exactly as in the source, and each socket event
handler becomes a function from state to (state, emitted events).
`socket.emit` / `io.to('user_X').emit` are modelled by recording the
event together with the identity of the target room; a user receives
an event targeted at their room exactly when they are connected.
Asynchronous persistence writes that can fail (`callSession.save()`)
are modelled by a boolean `saveOk` parameter; the current wall-clock
time is an explicit `now : Nat` parameter (milliseconds).
-/

namespace ChatCoord

/-- In-memory value of the `activeCalls` map:
`{ caller, callee, type, status }` (`createdAt`/`endedAt` timestamps are
never read by any handler and are omitted). -/
structure Call where
  caller : String
  callee : String
  type : String
  status : String
  deriving DecidableEq, Repr

/-- Durable `CallSession` document (`backend/models/CallSession.js`),
restricted to the fields the socket handler reads or writes.  Times are
milliseconds since epoch, mirroring JS `Date` arithmetic. -/
structure CallSessionRec where
  callId : String
  caller : String
  callee : String
  type : String
  status : String
  endReason : Option String
  startedAt : Option Nat
  answeredAt : Option Nat
  endedAt : Option Nat
  duration : Nat
  deriving DecidableEq, Repr

/-- `callSessionSchema.methods.updateStatus(status, additionalData)`:
sets `status`; on `answered` stamps `answeredAt`/`startedAt`; on any of
`ended/declined/missed/failed` stamps `endedAt`, recomputes `duration`
in seconds when `startedAt` is set, and records `additionalData.endReason`
when given.  (The `quality` metrics branch is never exercised by the
socket handler and is omitted.) -/
def updateStatus (s : CallSessionRec) (status : String) (endReason : Option String)
    (now : Nat) : CallSessionRec :=
  let s1 := { s with status := status }
  if status == "answered" then
    { s1 with answeredAt := some now, startedAt := some now }
  else if status == "ended" || status == "declined" || status == "missed"
      || status == "failed" then
    let s2 := { s1 with endedAt := some now }
    let s3 := match s2.startedAt with
      | some t => { s2 with duration := (now - t) / 1000 }
      | none => s2
    match endReason with
    | some r => { s3 with endReason := some r }
    | none => s3
  else s1

/-- `Map.get`: the value bound to the first (and in a real `Map`, only)
occurrence of the key. -/
def mapGet : List (String × Call) → String → Option Call
  | [], _ => none
  | p :: rest, k => if p.1 == k then some p.2 else mapGet rest k

/-- `Map.set`: overwrite the binding of an existing key in place, or
append a binding for a fresh key. -/
def mapSet : List (String × Call) → String → Call → List (String × Call)
  | [], k, v => [(k, v)]
  | p :: rest, k, v => if p.1 == k then (k, v) :: rest else p :: mapSet rest k v

/-- `Map.delete`: remove the binding of a key. -/
def mapDelete (l : List (String × Call)) (k : String) : List (String × Call) :=
  l.filter (fun p => !(p.1 == k))

/-- `CallSession.findOne({ callId })`: first stored document with the
given call id (`callId` has a unique index, so at most one exists). -/
def findSession : List CallSessionRec → String → Option CallSessionRec
  | [], _ => none
  | s :: rest, k => if s.callId == k then some s else findSession rest k

/-- Apply an update to the document `findOne({ callId })` returned
(the mutated document is saved back in place). -/
def updateSession : List CallSessionRec → String → (CallSessionRec → CallSessionRec) →
    List CallSessionRec
  | [], _, _ => []
  | s :: rest, k, f => if s.callId == k then f s :: rest else s :: updateSession rest k f

/-- Process state: keys of `connectedUsers`, the `activeCalls` map, and
the durable `CallSession` store. -/
structure ServerState where
  connectedUsers : List String
  activeCalls : List (String × Call)
  sessions : List CallSessionRec
  deriving DecidableEq, Repr

/-- An emitted socket event, tagged with the identity whose room
(`user_<target>`) it is addressed to. -/
inductive Event where
  | callError (target : String) (error : String)
  | callInitiated (target : String) (callId : String) (callee : String) (ctype : String)
  | incomingCall (target : String) (callId : String) (caller : String) (ctype : String)
  | callAnswered (target : String) (callId : String)
  | callEnded (target : String) (callId : String) (reason : String)
      (endedBy : Option String) (duration : Nat)
  | userStatusChanged (target : String) (userId : String) (status : String)
  | webrtcOffer (target : String) (callId : String) (payload : String) (sender : String)
  | webrtcAnswer (target : String) (callId : String) (payload : String) (sender : String)
  | webrtcIceCandidate (target : String) (callId : String) (payload : String) (sender : String)
  deriving DecidableEq, Repr

/-- The room an event is addressed to. -/
def Event.target : Event → String
  | .callError t _ => t
  | .callInitiated t _ _ _ => t
  | .incomingCall t _ _ _ => t
  | .callAnswered t _ => t
  | .callEnded t _ _ _ _ => t
  | .userStatusChanged t _ _ => t
  | .webrtcOffer t _ _ _ => t
  | .webrtcAnswer t _ _ _ => t
  | .webrtcIceCandidate t _ _ _ => t

/-- The `existingCall` predicate of the `call_initiate` handler: a call
involving either party whose status is `ringing` or `answered`. -/
def busyPred (userId calleeId : String) (p : String × Call) : Bool :=
  (p.2.caller == userId || p.2.callee == userId ||
   p.2.caller == calleeId || p.2.callee == calleeId) &&
  (p.2.status == "ringing" || p.2.status == "answered")

/-- `socket.on('call_initiate')` (socketHandler.js:156-233).
`contacts u` is user `u`'s stored contact list (`user.contacts`, a
read-only capability of the persistence collaborator); `saveOk` models
whether `callSession.save()` succeeds (on failure the `catch` block
emits `call_error` and nothing has been mutated); `newCallId` is the
value of `CallSession.generateCallId()`. -/
def callInitiate (contacts : String → List String) (saveOk : Bool)
    (userId calleeId ctype newCallId : String) (st : ServerState) :
    ServerState × List Event :=
  if !(st.connectedUsers.contains calleeId) then
    (st, [.callError userId "User is offline"])
  else if !((contacts userId).contains calleeId) then
    (st, [.callError userId "Can only call contacts"])
  else if st.activeCalls.any (busyPred userId calleeId) then
    (st, [.callError userId "User is already in a call"])
  else if !saveOk then
    (st, [.callError userId "Failed to initiate call"])
  else
    let sess : CallSessionRec :=
      { callId := newCallId, caller := userId, callee := calleeId, type := ctype,
        status := "ringing", endReason := none, startedAt := none,
        answeredAt := none, endedAt := none, duration := 0 }
    ({ st with
        sessions := st.sessions ++ [sess],
        activeCalls := mapSet st.activeCalls newCallId
          ⟨userId, calleeId, ctype, "ringing"⟩ },
     [.callInitiated userId newCallId calleeId ctype,
      .incomingCall calleeId newCallId userId ctype])

/-- The `switch (reason)` of `endCall` mapping an end reason onto the
`endReason` enum of the `CallSession` schema, with `user_hangup` as the
default fallback. -/
def endReasonOf (reason : String) : String :=
  if reason == "user_hangup" || reason == "declined" || reason == "timeout"
      || reason == "network_error" then reason
  else "user_hangup"

/-- `endCall(callId, reason, io, initiatedBy)` (socketHandler.js:343-398).
Returns unchanged state and no events when the call id is not in
`activeCalls`; otherwise updates the durable record (when one exists) to
status `ended` with the mapped end reason, emits `call_ended` to the
caller's and the callee's rooms carrying the original `reason` and the
updated document's `duration` (`callSession?.duration || 0`), and
deletes the entry from `activeCalls`. -/
def endCall (callId reason : String) (initiatedBy : Option String) (now : Nat)
    (st : ServerState) : ServerState × List Event :=
  match mapGet st.activeCalls callId with
  | none => (st, [])
  | some call =>
    let sessions' := match findSession st.sessions callId with
      | none => st.sessions
      | some _ => updateSession st.sessions callId
          (fun s => updateStatus s "ended" (some (endReasonOf reason)) now)
    let dur := match findSession st.sessions callId with
      | none => 0
      | some s => (updateStatus s "ended" (some (endReasonOf reason)) now).duration
    ({ st with activeCalls := mapDelete st.activeCalls callId, sessions := sessions' },
     [.callEnded call.caller callId reason initiatedBy dur,
      .callEnded call.callee callId reason initiatedBy dur])

/-- `socket.on('call_answer')` (socketHandler.js:235-263). -/
def callAnswer (userId callId : String) (now : Nat) (st : ServerState) :
    ServerState × List Event :=
  match mapGet st.activeCalls callId with
  | none => (st, [.callError userId "Call not found or already answered"])
  | some call =>
    if !(call.status == "ringing") then
      (st, [.callError userId "Call not found or already answered"])
    else
      ({ st with
          activeCalls := mapSet st.activeCalls callId { call with status := "answered" },
          sessions := updateSession st.sessions callId
            (fun s => updateStatus s "answered" none now) },
       [.callAnswered userId callId, .callAnswered call.caller callId])

/-- `socket.on('call_decline')` (socketHandler.js:265-268). -/
def callDecline (userId callId : String) (now : Nat) (st : ServerState) :
    ServerState × List Event :=
  endCall callId "declined" (some userId) now st

/-- `socket.on('call_end')` (socketHandler.js:270-273). -/
def callEnd (userId callId : String) (now : Nat) (st : ServerState) :
    ServerState × List Event :=
  endCall callId "user_hangup" (some userId) now st

/-- The `setTimeout` callback armed by `call_initiate`
(socketHandler.js:222-227): thirty seconds after initiation it looks the
call up again and force-ends it with reason `missed` only when it still
exists with status `ringing`. -/
def ringTimerFire (callId : String) (now : Nat) (st : ServerState) :
    ServerState × List Event :=
  match mapGet st.activeCalls callId with
  | some call =>
    if call.status == "ringing" then endCall callId "missed" none now st
    else (st, [])
  | none => (st, [])

/-- `socket.on('webrtc_offer')` (socketHandler.js:276-283): forwards the
payload to `user_<to>` unconditionally. -/
def webrtcOffer (userId callId payload toId : String) (st : ServerState) :
    ServerState × List Event :=
  (st, [.webrtcOffer toId callId payload userId])

/-- `socket.on('webrtc_answer')` (socketHandler.js:285-292). -/
def webrtcAnswer (userId callId payload toId : String) (st : ServerState) :
    ServerState × List Event :=
  (st, [.webrtcAnswer toId callId payload userId])

/-- `socket.on('webrtc_ice_candidate')` (socketHandler.js:294-301). -/
def webrtcIceCandidate (userId callId payload toId : String) (st : ServerState) :
    ServerState × List Event :=
  (st, [.webrtcIceCandidate toId callId payload userId])

/-- One step of the `for (const [callId] of userCalls)` loop of the
disconnect handler: end the call and accumulate the emitted events. -/
def endStep (uid : String) (now : Nat) (acc : ServerState × List Event)
    (p : String × Call) : ServerState × List Event :=
  let r := endCall p.1 "user_hangup" (some uid) now acc.1
  (r.1, acc.2 ++ r.2)

/-- `socket.on('disconnect')` (socketHandler.js:304-333): removes the
user from `connectedUsers`, emits `user_status_changed(offline)` to the
room of every contact in the contact list captured at connection time,
then ends every active call that references the user as caller or
callee with reason `user_hangup`. -/
def disconnect (contactsList : List String) (userId : String) (now : Nat)
    (st : ServerState) : ServerState × List Event :=
  let st1 := { st with connectedUsers := st.connectedUsers.filter (fun u => !(u == userId)) }
  let presence := contactsList.map (fun c => Event.userStatusChanged c userId "offline")
  let userCalls := st1.activeCalls.filter
    (fun p => p.2.caller == userId || p.2.callee == userId)
  let r := userCalls.foldl (endStep userId now) (st1, ([] : List Event))
  (r.1, presence ++ r.2)

/-- A call is non-terminal while `ringing` or `answered` (the statuses
the admission check of `call_initiate` treats as blocking). -/
def nonTerminal (c : Call) : Bool :=
  c.status == "ringing" || c.status == "answered"

/-- A call references an identity as caller or callee. -/
def involves (uid : String) (c : Call) : Bool :=
  c.caller == uid || c.callee == uid

/-- Number of non-terminal active calls referencing `uid`. -/
def perIdCount (l : List (String × Call)) (uid : String) : Nat :=
  l.countP (fun p => nonTerminal p.2 && involves uid p.2)

/-- The spec invariant: at most one non-terminal `ActiveCall` references
any given identity as caller or callee. -/
def oneCallPerId (st : ServerState) : Prop :=
  ∀ uid, perIdCount st.activeCalls uid ≤ 1

/-- All identities referenced by any active call. -/
def idsOf (l : List (String × Call)) : List String :=
  l.map (fun p => p.2.caller) ++ l.map (fun p => p.2.callee)

/-- Modelled from the spec (§4.5 Signaling Forwarder): "the call
identifier corresponds to a live ActiveCall involving the sending
identity".  Used only to compare the spec's claimed validation against
the code's actual forwarding behaviour. -/
def hasLiveCallInvolving (st : ServerState) (callId sender : String) : Bool :=
  match mapGet st.activeCalls callId with
  | some c => c.caller == sender || c.callee == sender
  | none => false

end ChatCoord

namespace ChatCoord

/-! ### Map and helper lemmas -/

theorem mapSet_of_get_none (l : List (String × Call)) (k : String) (v : Call)
    (h : mapGet l k = none) : mapSet l k v = l ++ [(k, v)] := by
  induction l with
  | nil => rfl
  | cons p rest ih =>
    rw [mapGet] at h
    by_cases hk : (p.1 == k) = true
    · simp [hk] at h
    · rw [Bool.not_eq_true] at hk
      rw [mapSet, hk]
      simp only [Bool.false_eq_true, if_false, List.cons_append, List.cons.injEq, true_and]
      exact ih (by rwa [hk, if_neg (by simp)] at h)

theorem mapDelete_of_get_none (l : List (String × Call)) (k : String)
    (h : mapGet l k = none) : mapDelete l k = l := by
  induction l with
  | nil => rfl
  | cons p rest ih =>
    rw [mapGet] at h
    by_cases hk : (p.1 == k) = true
    · simp [hk] at h
    · rw [Bool.not_eq_true] at hk
      rw [mapDelete, List.filter_cons]
      simp only [hk, Bool.not_false, if_true]
      rw [hk, if_neg (by simp)] at h
      exact congrArg (p :: ·) (ih h)

theorem mapGet_mapDelete_self (l : List (String × Call)) (k : String) :
    mapGet (mapDelete l k) k = none := by
  induction l with
  | nil => rfl
  | cons p rest ih =>
    rw [mapDelete, List.filter_cons]
    by_cases hk : (p.1 == k) = true
    · simp only [hk, Bool.not_true, Bool.false_eq_true, if_false]
      exact ih
    · rw [Bool.not_eq_true] at hk
      simp only [hk, Bool.not_false, if_true, mapGet, hk, Bool.false_eq_true, if_false]
      exact ih

theorem mapDelete_sublist (l : List (String × Call)) (k : String) :
    List.Sublist (mapDelete l k) l :=
  List.filter_sublist l

theorem countP_mapSet_of_get (f : String × Call → Bool) (l : List (String × Call))
    (k : String) (v v' : Call) (h : mapGet l k = some v)
    (hf : f (k, v') = f (k, v)) :
    (mapSet l k v').countP f = l.countP f := by
  induction l with
  | nil => simp [mapGet] at h
  | cons p rest ih =>
    rw [mapGet] at h
    by_cases hk : (p.1 == k) = true
    · rw [if_pos hk] at h
      have hkeq : p.1 = k := by rwa [beq_iff_eq] at hk
      have hveq : p.2 = v := by injection h
      rw [mapSet, if_pos hk, List.countP_cons, List.countP_cons]
      have : p = (k, v) := by
        cases p; simp_all
      rw [this, hf]
    · rw [Bool.not_eq_true] at hk
      rw [hk, if_neg (by simp)] at h
      rw [mapSet, hk]
      simp only [Bool.false_eq_true, if_false]
      rw [List.countP_cons, List.countP_cons, ih h]

theorem endCall_activeCalls (callId reason : String) (initiatedBy : Option String)
    (now : Nat) (st : ServerState) :
    (endCall callId reason initiatedBy now st).1.activeCalls
      = mapDelete st.activeCalls callId := by
  rw [endCall]
  cases h : mapGet st.activeCalls callId with
  | none => exact (mapDelete_of_get_none _ _ h).symm
  | some call => rfl

theorem endCall_connectedUsers (callId reason : String) (initiatedBy : Option String)
    (now : Nat) (st : ServerState) :
    (endCall callId reason initiatedBy now st).1.connectedUsers = st.connectedUsers := by
  rw [endCall]
  cases h : mapGet st.activeCalls callId with
  | none => rfl
  | some call => rfl

theorem perIdCount_le_of_delete (l : List (String × Call)) (k uid : String) :
    perIdCount (mapDelete l k) uid ≤ perIdCount l uid :=
  (mapDelete_sublist l k).countP_le _

theorem perIdCount_eq_zero_of_not_mem (l : List (String × Call)) (uid : String)
    (h : ¬ uid ∈ idsOf l) : perIdCount l uid = 0 := by
  rw [perIdCount, List.countP_eq_zero]
  intro p hp hcontra
  rw [Bool.and_eq_true] at hcontra
  have hinv := hcontra.2
  rw [involves, Bool.or_eq_true, beq_iff_eq, beq_iff_eq] at hinv
  apply h
  rw [idsOf, List.mem_append]
  cases hinv with
  | inl hc => exact Or.inl (List.mem_map.mpr ⟨p, hp, hc⟩)
  | inr hc => exact Or.inr (List.mem_map.mpr ⟨p, hp, hc⟩)

theorem oneCallPerId_of_forall_mem (st : ServerState)
    (h : ∀ uid ∈ idsOf st.activeCalls, perIdCount st.activeCalls uid ≤ 1) :
    oneCallPerId st := by
  intro uid
  by_cases hm : uid ∈ idsOf st.activeCalls
  · exact h uid hm
  · rw [perIdCount_eq_zero_of_not_mem _ _ hm]
    exact Nat.zero_le 1

end ChatCoord

namespace ChatCoord

/-! ### Invariant preservation -/

theorem endCall_preserves_oneCallPerId (callId reason : String)
    (initiatedBy : Option String) (now : Nat) (st : ServerState)
    (hinv : oneCallPerId st) :
    oneCallPerId (endCall callId reason initiatedBy now st).1 := by
  intro uid
  rw [endCall_activeCalls]
  exact Nat.le_trans (perIdCount_le_of_delete _ _ _) (hinv uid)

theorem callInitiate_preserves_oneCallPerId (contacts : String → List String)
    (saveOk : Bool) (userId calleeId ctype newCallId : String) (st : ServerState)
    (hfresh : mapGet st.activeCalls newCallId = none)
    (hinv : oneCallPerId st) :
    oneCallPerId (callInitiate contacts saveOk userId calleeId ctype newCallId st).1 := by
  rw [callInitiate]
  split
  · exact hinv
  · split
    · exact hinv
    · split
      · exact hinv
      · split
        · exact hinv
        · next h1 h2 h3 h4 =>
          intro uid
          dsimp only
          have hbusy : ∀ p ∈ st.activeCalls, busyPred userId calleeId p = false := by
            intro p hp
            by_contra hc
            rw [Bool.not_eq_false] at hc
            exact h3 (List.any_eq_true.mpr ⟨p, hp, hc⟩)
          simp only [perIdCount, mapSet_of_get_none _ _ _ hfresh, List.countP_append]
          by_cases hin :
              involves uid ⟨userId, calleeId, ctype, "ringing"⟩ = true
          · have hid : uid = userId ∨ uid = calleeId := by
              rw [involves, Bool.or_eq_true, beq_iff_eq, beq_iff_eq] at hin
              rcases hin with h | h
              · exact Or.inl h.symm
              · exact Or.inr h.symm
            have hzero : st.activeCalls.countP
                (fun p => nonTerminal p.2 && involves uid p.2) = 0 := by
              rw [List.countP_eq_zero]
              intro p hp hcontra
              rw [Bool.and_eq_true] at hcontra
              have hb := hbusy p hp
              rw [busyPred, Bool.and_eq_false_iff] at hb
              rcases hb with hb | hb
              · have hi := hcontra.2
                rw [involves, Bool.or_eq_true] at hi
                rcases hid with rfl | rfl
                · rcases hi with h | h <;> simp [h] at hb
                · rcases hi with h | h <;> simp [h] at hb
              · have hnt := hcontra.1
                rw [nonTerminal] at hnt
                rw [hnt] at hb
                exact Bool.noConfusion hb
            have hone : List.countP (fun p => nonTerminal p.2 && involves uid p.2)
                [(newCallId, (⟨userId, calleeId, ctype, "ringing"⟩ : Call))] ≤ 1 :=
              Nat.le_trans (List.countP_le_length _) (by simp)
            omega
          · have hz1 : List.countP (fun p => nonTerminal p.2 && involves uid p.2)
                [(newCallId, (⟨userId, calleeId, ctype, "ringing"⟩ : Call))] = 0 := by
              rw [List.countP_eq_zero]
              intro a ha
              rw [List.mem_singleton] at ha
              subst ha
              rw [Bool.not_eq_true] at hin
              simp [hin]
            have h2 := hinv uid
            simp only [perIdCount] at h2
            omega

theorem callAnswer_preserves_oneCallPerId (userId callId : String) (now : Nat)
    (st : ServerState) (hinv : oneCallPerId st) :
    oneCallPerId (callAnswer userId callId now st).1 := by
  rw [callAnswer]
  split
  · exact hinv
  · next call h =>
    split
    · exact hinv
    · next hr =>
      intro uid
      dsimp only
      have hring : call.status = "ringing" := by
        simp at hr
        exact hr
      simp only [perIdCount]
      rw [countP_mapSet_of_get _ _ _ call _ h]
      · exact hinv uid
      · simp [nonTerminal, involves, hring]

theorem ringTimerFire_preserves_oneCallPerId (callId : String) (now : Nat)
    (st : ServerState) (hinv : oneCallPerId st) :
    oneCallPerId (ringTimerFire callId now st).1 := by
  rw [ringTimerFire]
  split
  · split
    · exact endCall_preserves_oneCallPerId _ _ _ _ _ hinv
    · exact hinv
  · exact hinv

theorem foldl_endStep_preserves (calls : List (String × Call)) (uid : String)
    (now : Nat) :
    ∀ acc : ServerState × List Event, oneCallPerId acc.1 →
      oneCallPerId (calls.foldl (endStep uid now) acc).1 := by
  induction calls with
  | nil => intro acc h; exact h
  | cons p rest ih =>
    intro acc h
    rw [List.foldl_cons]
    exact ih _ (endCall_preserves_oneCallPerId _ _ _ _ _ h)

theorem disconnect_preserves_oneCallPerId (contactsList : List String)
    (userId : String) (now : Nat) (st : ServerState) (hinv : oneCallPerId st) :
    oneCallPerId (disconnect contactsList userId now st).1 := by
  rw [disconnect]
  exact foldl_endStep_preserves _ _ _ _ hinv

end ChatCoord

namespace ChatCoord

/-! ### Concrete example states used by witnesses -/

/-- Symmetric example contact lists: A↔B and A↔C are contacts. -/
def exContacts : String → List String
  | "A" => ["B", "C"]
  | "B" => ["A"]
  | "C" => ["A"]
  | _ => []

/-- Empty contact lists (trivially symmetric). -/
def noContacts : String → List String := fun _ => []

/-- Three users online, no calls, no stored sessions. -/
def stIdle : ServerState :=
  { connectedUsers := ["A", "B", "C"], activeCalls := [], sessions := [] }

/-- Three users online, one ringing call A→B with its durable record. -/
def stBusy : ServerState :=
  { connectedUsers := ["A", "B", "C"],
    activeCalls := [("c1", ⟨"A", "B", "video", "ringing"⟩)],
    sessions := [{ callId := "c1", caller := "A", callee := "B", type := "video",
                   status := "ringing", endReason := none, startedAt := none,
                   answeredAt := none, endedAt := none, duration := 0 }] }

/-- Three users online, one answered call A→B with its durable record. -/
def stAnswered : ServerState :=
  { connectedUsers := ["A", "B", "C"],
    activeCalls := [("c1", ⟨"A", "B", "video", "answered"⟩)],
    sessions := [{ callId := "c1", caller := "A", callee := "B", type := "video",
                   status := "answered", endReason := none, startedAt := some 5000,
                   answeredAt := some 5000, endedAt := none, duration := 0 }] }

/-! ### Claim theorems -/

/-- C1: at most one non-terminal ActiveCall (status in {ringing, answered})
references a given identity as caller or callee; this invariant is
preserved by every state-mutating operation of the coordinator
(`call_initiate` with a fresh generated call id, `call_answer`,
`endCall`, the ring-timer callback, and the disconnect handler), and a
`call_initiate` naming an identity that already has such a call — once
the earlier guards (callee online, callee in the caller's contacts) pass
— fails with the `AlreadyInCall` error (`call_error` "User is already in
a call") and leaves the state, hence the set of ActiveCalls, unchanged. -/
theorem one_call_per_identity_invariant
    (contacts : String → List String) (saveOk : Bool)
    (userId calleeId ctype newCallId aUid aCallId eCallId reason rCallId dUid : String)
    (initiatedBy : Option String) (now : Nat) (contactsList : List String)
    (st : ServerState) (hinv : oneCallPerId st) :
    (mapGet st.activeCalls newCallId = none →
      oneCallPerId (callInitiate contacts saveOk userId calleeId ctype newCallId st).1) ∧
    oneCallPerId (callAnswer aUid aCallId now st).1 ∧
    oneCallPerId (endCall eCallId reason initiatedBy now st).1 ∧
    oneCallPerId (ringTimerFire rCallId now st).1 ∧
    oneCallPerId (disconnect contactsList dUid now st).1 ∧
    (st.connectedUsers.contains calleeId = true →
      (contacts userId).contains calleeId = true →
      st.activeCalls.any (busyPred userId calleeId) = true →
      callInitiate contacts saveOk userId calleeId ctype newCallId st
        = (st, [.callError userId "User is already in a call"])) := by
  refine ⟨fun hfresh => callInitiate_preserves_oneCallPerId _ _ _ _ _ _ _ hfresh hinv,
    callAnswer_preserves_oneCallPerId _ _ _ _ hinv,
    endCall_preserves_oneCallPerId _ _ _ _ _ hinv,
    ringTimerFire_preserves_oneCallPerId _ _ _ hinv,
    disconnect_preserves_oneCallPerId _ _ _ _ hinv,
    fun hOnline hContact hBusy => ?_⟩
  have hm1 : calleeId ∈ st.connectedUsers := by simpa using hOnline
  have hm2 : calleeId ∈ contacts userId := by simpa using hContact
  simp [callInitiate, hm1, hm2, hBusy]

/-- Witness for C1: in the concrete state with a ringing call A→B, a
`call_initiate` from C to the busy identity A is rejected with the
`AlreadyInCall` error and the state is unchanged, and answering the
ringing call keeps the one-call-per-identity invariant. -/
theorem one_call_per_identity_invariant_witness :
    callInitiate exContacts true "C" "A" "voice" "c2" stBusy
      = (stBusy, [Event.callError "C" "User is already in a call"]) ∧
    oneCallPerId (callAnswer "B" "c1" 5000 stBusy).1 := by
  have hinv : oneCallPerId stBusy :=
    oneCallPerId_of_forall_mem stBusy (by decide)
  have h := one_call_per_identity_invariant exContacts true "C" "A" "voice" "c2"
    "B" "c1" "c1" "user_hangup" "c1" "A" (some "A") 5000 ["B"] stBusy hinv
  exact ⟨h.2.2.2.2.2 (by decide) (by decide) (by decide), h.2.1⟩

/-- C3: with the contact relationship symmetric (as the spec's data
model stipulates and the contact-management routes maintain by adding
and removing both directions), a `call_initiate` towards an online
callee that is not a mutual contact of the caller fails with the
`NotAuthorized` error (`call_error` "Can only call contacts") and the
state, hence the set of ActiveCalls, is unchanged.  (The handler itself
consults only the caller's list; symmetry makes that equivalent to the
mutual check.  When the callee is offline the earlier `PeerOffline`
guard fires instead.) -/
theorem initiate_not_mutual_contacts_fails
    (contacts : String → List String) (saveOk : Bool)
    (userId calleeId ctype newCallId : String) (st : ServerState)
    (hsym : ∀ a b, (contacts a).contains b = (contacts b).contains a)
    (hOnline : st.connectedUsers.contains calleeId = true)
    (hnm : ¬((contacts userId).contains calleeId = true ∧
             (contacts calleeId).contains userId = true)) :
    callInitiate contacts saveOk userId calleeId ctype newCallId st
      = (st, [.callError userId "Can only call contacts"]) := by
  have hnc : (contacts userId).contains calleeId = false := by
    cases hc : (contacts userId).contains calleeId with
    | false => rfl
    | true =>
      refine absurd ⟨hc, ?_⟩ hnm
      rw [← hsym userId calleeId]
      exact hc
  have hm1 : calleeId ∈ st.connectedUsers := by simpa using hOnline
  have hm2 : ¬ calleeId ∈ contacts userId := by simpa using hnc
  simp [callInitiate, hm1, hm2]

/-- Witness for C3: with empty (symmetric) contact lists, A calling the
online non-contact B receives the `NotAuthorized` error and no
ActiveCall is created. -/
theorem initiate_not_mutual_contacts_fails_witness :
    callInitiate noContacts true "A" "B" "video" "c9" stIdle
      = (stIdle, [Event.callError "A" "Can only call contacts"]) := by
  exact initiate_not_mutual_contacts_fails noContacts true "A" "B" "video" "c9" stIdle
    (fun a b => rfl) (by decide) (by decide)

/-- C6: when the durable call-session creation write fails during
`call_initiate` (the `callSession.save()` promise rejects), the
operation fails as a whole: the state — in particular the in-memory
`activeCalls` table and the durable store — is unchanged, no
`call_initiated`/`incoming_call` event is emitted, and the caller
receives only the `call_error` event of the `catch` block. -/
theorem initiate_persistence_failure_atomic
    (contacts : String → List String) (userId calleeId ctype newCallId : String)
    (st : ServerState)
    (hOnline : st.connectedUsers.contains calleeId = true)
    (hContact : (contacts userId).contains calleeId = true)
    (hFree : st.activeCalls.any (busyPred userId calleeId) = false) :
    callInitiate contacts false userId calleeId ctype newCallId st
      = (st, [.callError userId "Failed to initiate call"]) := by
  have hm1 : calleeId ∈ st.connectedUsers := by simpa using hOnline
  have hm2 : calleeId ∈ contacts userId := by simpa using hContact
  simp [callInitiate, hm1, hm2, hFree]

/-- Witness for C6: A calling its online contact B while the durable
write fails yields only the failure `call_error`, with the state
unchanged. -/
theorem initiate_persistence_failure_atomic_witness :
    callInitiate exContacts false "A" "B" "video" "c9" stIdle
      = (stIdle, [Event.callError "A" "Failed to initiate call"]) := by
  exact initiate_persistence_failure_atomic exContacts "A" "B" "video" "c9" stIdle
    (by decide) (by decide) (by decide)

end ChatCoord

namespace ChatCoord

/-! ### endCall behaviour lemmas -/

theorem endCall_removes (callId reason : String) (i : Option String) (now : Nat)
    (st : ServerState) :
    mapGet (endCall callId reason i now st).1.activeCalls callId = none := by
  rw [endCall_activeCalls]
  exact mapGet_mapDelete_self _ _

theorem endCall_of_get_none (callId reason : String) (i : Option String) (now : Nat)
    (st : ServerState) (h : mapGet st.activeCalls callId = none) :
    endCall callId reason i now st = (st, []) := by
  rw [endCall, h]

theorem endCall_events_of_get (callId reason : String) (i : Option String) (now : Nat)
    (st : ServerState) (call : Call) (h : mapGet st.activeCalls callId = some call) :
    ∃ d, (endCall callId reason i now st).2
      = [Event.callEnded call.caller callId reason i d,
         Event.callEnded call.callee callId reason i d] := by
  rw [endCall, h]
  exact ⟨_, rfl⟩

theorem endCall_events_shape (callId reason : String) (i : Option String) (now : Nat)
    (st : ServerState) :
    ∀ e ∈ (endCall callId reason i now st).2,
      ∃ t d, e = Event.callEnded t callId reason i d := by
  intro e he
  rw [endCall] at he
  cases h : mapGet st.activeCalls callId with
  | none => rw [h] at he; simp at he
  | some call =>
    rw [h] at he
    simp only [List.mem_cons, List.not_mem_nil, or_false] at he
    rcases he with rfl | rfl
    · exact ⟨_, _, rfl⟩
    · exact ⟨_, _, rfl⟩

/-- C5: ending a call twice with the same callId is idempotent: after
the first `endCall` the entry is gone from `activeCalls`, so the second
invocation — with any reason, requester or time — observes no
ActiveCall, changes nothing, and emits no event (in particular no
second `call_ended`).  `call_end` and `call_decline` are the two
`endCall` wrappers, so both parties hanging up concurrently is covered:
the second invocation is a no-op. -/
theorem end_twice_idempotent (callId r1 r2 : String) (i1 i2 : Option String)
    (n1 n2 : Nat) (st : ServerState) :
    mapGet (endCall callId r1 i1 n1 st).1.activeCalls callId = none ∧
    endCall callId r2 i2 n2 (endCall callId r1 i1 n1 st).1
      = ((endCall callId r1 i1 n1 st).1, []) := by
  refine ⟨endCall_removes _ _ _ _ _, ?_⟩
  exact endCall_of_get_none _ _ _ _ _ (endCall_removes _ _ _ _ _)

/-- C2 counterexample: the claim says a `webrtc_ice_candidate` whose
callId matches no live ActiveCall involving the sender is dropped and
the target receives nothing.  In the concrete state `stIdle` (A, B, C
connected, no active calls at all) the forwarder nevertheless emits the
candidate to B's room — B is connected, so B receives it. -/
theorem signaling_no_validation_counterexample :
    hasLiveCallInvolving stIdle "c1" "A" = false ∧
    stIdle.connectedUsers.contains "B" = true ∧
    (webrtcIceCandidate "A" "c1" "cand" "B" stIdle).2
      = [Event.webrtcIceCandidate "B" "c1" "cand" "A"] ∧
    ((webrtcIceCandidate "A" "c1" "cand" "B" stIdle).2.filter
      (fun e => e.target == "B")) ≠ [] := by
  refine ⟨rfl, rfl, rfl, ?_⟩
  decide

/-- C2 amended: the three signaling forwarders perform no validation at
all — for every state (whether or not any live ActiveCall matches the
carried call identifier) they leave the state unchanged and forward the
call id, the opaque payload and the sending identity verbatim to the
target's room; nothing is ever dropped and no error is surfaced to the
sender. -/
theorem signaling_forwarder_unconditional
    (userId callId payload toId : String) (st : ServerState) :
    webrtcOffer userId callId payload toId st
      = (st, [Event.webrtcOffer toId callId payload userId]) ∧
    webrtcAnswer userId callId payload toId st
      = (st, [Event.webrtcAnswer toId callId payload userId]) ∧
    webrtcIceCandidate userId callId payload toId st
      = (st, [Event.webrtcIceCandidate toId callId payload userId]) :=
  ⟨rfl, rfl, rfl⟩

/-- C9: a stale ring timer never re-terminates a call that has left the
`ringing` status: the timeout callback re-checks the ActiveCall, and
when the call no longer exists, or exists with a status other than
`ringing` (e.g. `answered`), the callback changes nothing and emits
nothing. -/
theorem stale_ring_timer_noop (callId : String) (now : Nat) (st : ServerState) :
    (∀ call, mapGet st.activeCalls callId = some call → ¬ call.status = "ringing" →
      ringTimerFire callId now st = (st, [])) ∧
    (mapGet st.activeCalls callId = none → ringTimerFire callId now st = (st, [])) := by
  constructor
  · intro call h hs
    rw [ringTimerFire, h]
    simp [hs]
  · intro h
    rw [ringTimerFire, h]

/-- Witness for C9: the timer fires on the answered call `c1` and is a
no-op. -/
theorem stale_ring_timer_noop_witness :
    ringTimerFire "c1" 35000 stAnswered = (stAnswered, []) :=
  (stale_ring_timer_noop "c1" 35000 stAnswered).1
    ⟨"A", "B", "video", "answered"⟩ (by decide) (by decide)

/-- C4: when the ring timer fires on a call still in status `ringing`
(no `answer`/`decline` was applied within the 30-second timeout), the
call transitions to `missed` exactly once: `call_ended` with reason
`missed` is emitted to the caller's and the callee's rooms, the
ActiveCall is removed from memory, and a second firing of the timer is
a complete no-op (no state change, no events). -/
theorem ring_timeout_missed_exactly_once (callId : String) (now now2 : Nat)
    (st : ServerState) (call : Call)
    (hget : mapGet st.activeCalls callId = some call)
    (hring : call.status = "ringing") :
    (∃ d, (ringTimerFire callId now st).2
        = [Event.callEnded call.caller callId "missed" none d,
           Event.callEnded call.callee callId "missed" none d]) ∧
    mapGet (ringTimerFire callId now st).1.activeCalls callId = none ∧
    ringTimerFire callId now2 (ringTimerFire callId now st).1
      = ((ringTimerFire callId now st).1, []) := by
  have hfire : ringTimerFire callId now st = endCall callId "missed" none now st := by
    rw [ringTimerFire, hget]
    simp [hring]
  rw [hfire]
  refine ⟨endCall_events_of_get _ _ _ _ _ _ hget, endCall_removes _ _ _ _ _, ?_⟩
  rw [ringTimerFire, endCall_removes _ _ _ _ _]

/-- Witness for C4: the timer fires on the ringing call `c1` of
`stBusy`; both parties get `call_ended{reason: missed}` and the call is
gone, and a second firing is a no-op. -/
theorem ring_timeout_missed_exactly_once_witness :
    (∃ d, (ringTimerFire "c1" 30000 stBusy).2
        = [Event.callEnded "A" "c1" "missed" none d,
           Event.callEnded "B" "c1" "missed" none d]) ∧
    mapGet (ringTimerFire "c1" 30000 stBusy).1.activeCalls "c1" = none ∧
    ringTimerFire "c1" 60000 (ringTimerFire "c1" 30000 stBusy).1
      = ((ringTimerFire "c1" 30000 stBusy).1, []) :=
  ring_timeout_missed_exactly_once "c1" 30000 60000 stBusy
    ⟨"A", "B", "video", "ringing"⟩ (by decide) (by decide)

/-- C8: `call_decline` and `call_end` perform no participant check: any
authenticated identity R — here explicitly neither the caller nor the
callee — that names a live callId terminates the call: `call_ended`
(with R recorded as `endedBy`) is emitted to both participants' rooms
and the ActiveCall is removed. -/
theorem end_no_participant_check (uid callId : String) (now : Nat)
    (st : ServerState) (call : Call)
    (hget : mapGet st.activeCalls callId = some call)
    (hnc : ¬ uid = call.caller) (hne : ¬ uid = call.callee) :
    (∃ d, (callDecline uid callId now st).2
        = [Event.callEnded call.caller callId "declined" (some uid) d,
           Event.callEnded call.callee callId "declined" (some uid) d]) ∧
    mapGet (callDecline uid callId now st).1.activeCalls callId = none ∧
    (∃ d, (callEnd uid callId now st).2
        = [Event.callEnded call.caller callId "user_hangup" (some uid) d,
           Event.callEnded call.callee callId "user_hangup" (some uid) d]) ∧
    mapGet (callEnd uid callId now st).1.activeCalls callId = none :=
  ⟨endCall_events_of_get _ _ _ _ _ _ hget, endCall_removes _ _ _ _ _,
   endCall_events_of_get _ _ _ _ _ _ hget, endCall_removes _ _ _ _ _⟩

/-- Witness for C8: C, a stranger to the ringing call `c1` between A
and B, declines or ends it; both A and B receive `call_ended` and the
call is removed. -/
theorem end_no_participant_check_witness :
    (∃ d, (callDecline "C" "c1" 7000 stBusy).2
        = [Event.callEnded "A" "c1" "declined" (some "C") d,
           Event.callEnded "B" "c1" "declined" (some "C") d]) ∧
    mapGet (callDecline "C" "c1" 7000 stBusy).1.activeCalls "c1" = none ∧
    (∃ d, (callEnd "C" "c1" 7000 stBusy).2
        = [Event.callEnded "A" "c1" "user_hangup" (some "C") d,
           Event.callEnded "B" "c1" "user_hangup" (some "C") d]) ∧
    mapGet (callEnd "C" "c1" 7000 stBusy).1.activeCalls "c1" = none :=
  end_no_participant_check "C" "c1" 7000 stBusy
    ⟨"A", "B", "video", "ringing"⟩ (by decide) (by decide) (by decide)

end ChatCoord

namespace ChatCoord

/-! ### Durable record lemmas and C10 -/

theorem updateStatus_ended_fields (s : CallSessionRec) (r : String) (now : Nat) :
    (updateStatus s "ended" (some r) now).status = "ended" ∧
    (updateStatus s "ended" (some r) now).endReason = some r ∧
    (updateStatus s "ended" (some r) now).callId = s.callId := by
  rw [updateStatus]
  cases h : s.startedAt <;> simp [h]

theorem findSession_updateSession_self (l : List CallSessionRec) (k : String)
    (f : CallSessionRec → CallSessionRec) (s : CallSessionRec)
    (h : findSession l k = some s) (hs : (f s).callId = s.callId) :
    findSession (updateSession l k f) k = some (f s) := by
  induction l with
  | nil => simp [findSession] at h
  | cons a rest ih =>
    rw [findSession] at h
    by_cases hk : (a.callId == k) = true
    · rw [if_pos hk] at h
      injection h with h
      subst h
      rw [updateSession, if_pos hk, findSession, if_pos]
      rw [beq_iff_eq] at hk ⊢
      rw [hs, hk]
    · rw [Bool.not_eq_true] at hk
      rw [hk, if_neg (by simp)] at h
      rw [updateSession, hk]
      simp only [Bool.false_eq_true, if_false]
      rw [findSession, hk]
      simp only [Bool.false_eq_true, if_false]
      exact ih h

/-- C10: terminating a call through `endCall` with a reason outside the
`endReason` enum of the CallSession schema — such as `missed` from the
ring timeout — persists the durable record with status `ended` and the
default fallback endReason `user_hangup`, while the `call_ended` event
emitted to both parties carries the original reason. -/
theorem end_reason_fallback_persisted (callId reason : String) (i : Option String)
    (now : Nat) (st : ServerState) (call : Call) (sess : CallSessionRec)
    (hget : mapGet st.activeCalls callId = some call)
    (hsess : findSession st.sessions callId = some sess)
    (hr : (reason == "user_hangup" || reason == "declined" || reason == "timeout"
        || reason == "network_error") = false) :
    (∃ s', findSession (endCall callId reason i now st).1.sessions callId = some s' ∧
      s'.status = "ended" ∧ s'.endReason = some "user_hangup") ∧
    (∃ d, (endCall callId reason i now st).2
        = [Event.callEnded call.caller callId reason i d,
           Event.callEnded call.callee callId reason i d]) := by
  have hfb : endReasonOf reason = "user_hangup" := by
    rw [endReasonOf, hr]
    rfl
  have hsessions : (endCall callId reason i now st).1.sessions
      = updateSession st.sessions callId
          (fun s => updateStatus s "ended" (some (endReasonOf reason)) now) := by
    rw [endCall, hget]
    dsimp only
    rw [hsess]
  refine ⟨⟨updateStatus sess "ended" (some (endReasonOf reason)) now, ?_, ?_, ?_⟩,
    endCall_events_of_get _ _ _ _ _ _ hget⟩
  · rw [hsessions]
    exact findSession_updateSession_self _ _ _ _ hsess
      (updateStatus_ended_fields sess (endReasonOf reason) now).2.2
  · exact (updateStatus_ended_fields sess (endReasonOf reason) now).1
  · rw [hfb] at *
    exact (updateStatus_ended_fields sess "user_hangup" now).2.1

/-- Witness for C10: the ring timeout ends `c1` with reason `missed`;
the stored record's status becomes `ended` with endReason
`user_hangup`, while both `call_ended` events carry `missed`. -/
theorem end_reason_fallback_persisted_witness :
    (∃ s', findSession (endCall "c1" "missed" none 30000 stBusy).1.sessions "c1"
        = some s' ∧ s'.status = "ended" ∧ s'.endReason = some "user_hangup") ∧
    (∃ d, (endCall "c1" "missed" none 30000 stBusy).2
        = [Event.callEnded "A" "c1" "missed" none d,
           Event.callEnded "B" "c1" "missed" none d]) :=
  end_reason_fallback_persisted "c1" "missed" none 30000 stBusy
    ⟨"A", "B", "video", "ringing"⟩
    { callId := "c1", caller := "A", callee := "B", type := "video",
      status := "ringing", endReason := none, startedAt := none,
      answeredAt := none, endedAt := none, duration := 0 }
    (by decide) (by decide) (by decide)

end ChatCoord

namespace ChatCoord

/-! ### Disconnect handler lemmas and C7 -/

theorem foldl_endStep_activeCalls (calls : List (String × Call)) (uid : String)
    (now : Nat) :
    ∀ acc : ServerState × List Event,
      ((calls.foldl (endStep uid now) acc).1).activeCalls
        = calls.foldl (fun l q => mapDelete l q.1) acc.1.activeCalls := by
  induction calls with
  | nil => intro acc; rfl
  | cons p rest ih =>
    intro acc
    have hstep : (endStep uid now acc p).1.activeCalls
        = mapDelete acc.1.activeCalls p.1 := endCall_activeCalls _ _ _ _ _
    rw [List.foldl_cons, List.foldl_cons, ih, hstep]

theorem foldl_endStep_events (calls : List (String × Call)) (uid : String)
    (now : Nat) :
    ∀ (acc : ServerState × List Event) (e : Event),
      e ∈ (calls.foldl (endStep uid now) acc).2 →
      e ∈ acc.2 ∨ ∃ t c d, e = Event.callEnded t c "user_hangup" (some uid) d := by
  induction calls with
  | nil => intro acc e he; exact Or.inl he
  | cons p rest ih =>
    intro acc e he
    rw [List.foldl_cons] at he
    rcases ih _ e he with hmem | hshape
    · have hmem2 : e ∈ acc.2 ++ (endCall p.1 "user_hangup" (some uid) now acc.1).2 := hmem
      rw [List.mem_append] at hmem2
      rcases hmem2 with h | h
      · exact Or.inl h
      · obtain ⟨t, d, hde⟩ := endCall_events_shape _ _ _ _ _ e h
        exact Or.inr ⟨t, p.1, d, hde⟩
    · exact Or.inr hshape

theorem mem_foldl_mapDelete (keysrc : List (String × Call)) :
    ∀ (l : List (String × Call)) (p : String × Call),
      p ∈ keysrc.foldl (fun l q => mapDelete l q.1) l →
      p ∈ l ∧ ∀ q ∈ keysrc, ¬ p.1 = q.1 := by
  induction keysrc with
  | nil =>
    intro l p h
    exact ⟨h, fun q hq => absurd hq (List.not_mem_nil q)⟩
  | cons q rest ih =>
    intro l p h
    rw [List.foldl_cons] at h
    obtain ⟨hmem, hrest⟩ := ih _ p h
    rw [mapDelete, List.mem_filter] at hmem
    obtain ⟨hl, hne⟩ := hmem
    refine ⟨hl, fun q' hq' => ?_⟩
    rcases List.mem_cons.mp hq' with rfl | h'
    · intro heq
      rw [heq] at hne
      simp at hne
    · exact hrest q' h'

theorem disconnect_events (contactsList : List String) (userId : String)
    (now : Nat) (st : ServerState) :
    (disconnect contactsList userId now st).2
      = contactsList.map (fun c => Event.userStatusChanged c userId "offline")
        ++ ((st.activeCalls.filter
              (fun p => p.2.caller == userId || p.2.callee == userId)).foldl
            (endStep userId now)
            ({ st with connectedUsers :=
                st.connectedUsers.filter (fun u => !(u == userId)) },
             ([] : List Event))).2 := rfl

theorem disconnect_activeCalls (contactsList : List String) (userId : String)
    (now : Nat) (st : ServerState) :
    (disconnect contactsList userId now st).1.activeCalls
      = (st.activeCalls.filter
          (fun p => p.2.caller == userId || p.2.callee == userId)).foldl
          (fun l q => mapDelete l q.1) st.activeCalls :=
  foldl_endStep_activeCalls
    (st.activeCalls.filter (fun p => p.2.caller == userId || p.2.callee == userId))
    userId now
    ({ st with connectedUsers := st.connectedUsers.filter (fun u => !(u == userId)) },
     ([] : List Event))

/-- C7: when an identity disconnects, (a) the room of every distinct
contact in the contact list captured at connect time is sent exactly one
`status_changed(offline)` event — so every online contact receives
exactly one — (b) after the handler returns no ActiveCall references
the disconnecting identity as caller or callee, and (c) every non-presence
event the handler emits is a `call_ended` with reason `user_hangup`
(the termination of the identity's calls), so the calls are terminated
with `user_hangup` before the handler returns. -/
theorem disconnect_presence_and_call_cleanup (contactsList : List String)
    (userId : String) (now : Nat) (st : ServerState)
    (hnd : contactsList.Nodup) :
    (∀ c ∈ contactsList,
      (disconnect contactsList userId now st).2.count
        (Event.userStatusChanged c userId "offline") = 1) ∧
    (∀ p ∈ (disconnect contactsList userId now st).1.activeCalls,
      involves userId p.2 = false) ∧
    (∀ e ∈ (disconnect contactsList userId now st).2,
      (∀ c, ¬ e = Event.userStatusChanged c userId "offline") →
      ∃ t cid d, e = Event.callEnded t cid "user_hangup" (some userId) d) := by
  have hinj : Function.Injective
      (fun c => Event.userStatusChanged c userId "offline") := by
    intro a b h
    simpa using congrArg Event.target h
  refine ⟨?_, ?_, ?_⟩
  · intro c hc
    rw [disconnect_events, List.count_append]
    have h1 : (contactsList.map
        (fun c => Event.userStatusChanged c userId "offline")).count
        (Event.userStatusChanged c userId "offline") = 1 := by
      rw [List.count_map_of_injective contactsList _ hinj c]
      exact List.count_eq_one_of_mem hnd hc
    have h2 : (((st.activeCalls.filter
          (fun p => p.2.caller == userId || p.2.callee == userId)).foldl
            (endStep userId now)
            ({ st with connectedUsers :=
                st.connectedUsers.filter (fun u => !(u == userId)) },
             ([] : List Event))).2).count
        (Event.userStatusChanged c userId "offline") = 0 := by
      rw [List.count_eq_zero]
      intro hmem
      rcases foldl_endStep_events _ _ _ _ _ hmem with h0 | ⟨t, cid, d, hsh⟩
      · simp at h0
      · simp at hsh
    rw [h1, h2]
  · intro p hp
    rw [disconnect_activeCalls] at hp
    obtain ⟨hmem, hkeys⟩ := mem_foldl_mapDelete _ _ _ hp
    by_contra hc
    rw [Bool.not_eq_false] at hc
    have hpf : p ∈ st.activeCalls.filter
        (fun p => p.2.caller == userId || p.2.callee == userId) := by
      rw [List.mem_filter]
      exact ⟨hmem, hc⟩
    exact hkeys p hpf rfl
  · intro e he hnp
    rw [disconnect_events, List.mem_append] at he
    rcases he with h | h
    · obtain ⟨c, hc, hce⟩ := List.mem_map.mp h
      exact absurd hce.symm (hnp c)
    · rcases foldl_endStep_events _ _ _ _ _ h with h0 | ⟨t, cid, d, hsh⟩
      · simp at h0
      · exact ⟨t, cid, d, hsh⟩

/-- Witness for C7: A (in the ringing call `c1` with B, contacts B and
C) disconnects; B's and C's rooms each get exactly one offline
presence event. -/
theorem disconnect_presence_and_call_cleanup_witness :
    (disconnect ["B", "C"] "A" 9000 stBusy).2.count
      (Event.userStatusChanged "B" "A" "offline") = 1 ∧
    (disconnect ["B", "C"] "A" 9000 stBusy).2.count
      (Event.userStatusChanged "C" "A" "offline") = 1 :=
  ⟨(disconnect_presence_and_call_cleanup ["B", "C"] "A" 9000 stBusy (by decide)).1
      "B" (by decide),
   (disconnect_presence_and_call_cleanup ["B", "C"] "A" 9000 stBusy (by decide)).1
      "C" (by decide)⟩

end ChatCoord
